import Mathlib

/-!
Verification development for the identifier-resolution orchestrator of
ProteinCartography (ProteinCartography/map_refseqids.py).

The two request backends, map_refseqids_bioservices and map_refseqids_rest,
are shallowly embedded here.  External effects are made explicit:

* the input file is a String (its full content); Python f.read().splitlines()
  is modelled by splitlines below (the model restricts line terminators to
  LF, which is the only terminator the output writer ever emits);
* pandas DataFrames are modelled by the DataFrame structure: a column-name
  list plus rows given as association lists from column name to value,
  mirroring pd.DataFrame(list-of-records), pd.concat and column selection
  (column selection raises KeyError when the column is absent, modelled by
  Option);
* the mapping service is a parameter: for the rest backend, RestEnv gives
  the job id returned by POST run, the readiness of each GET status response
  (whether the payload has a "results" key), and the decoded GET stream
  payload; for the bioservices backend the service is a function from the
  database name and the submitted id batch to the list of mapping pairs;
* HTTP requests issued by map_refseqids_rest are accumulated in a trace of
  Request values recording the endpoint kind and the headers passed;
* sys.exit and the pandas KeyError are the two abnormal outcomes, RunError.
-/

/-- Model of Python str.splitlines restricted to LF: worker over the
character list, accumulating the current line in reverse. -/
def splitlinesAux : List Char → List Char → List String
  | [], [] => []
  | [], cur => [String.mk cur.reverse]
  | c :: rest, cur =>
    if c = '\n' then String.mk cur.reverse :: splitlinesAux rest []
    else splitlinesAux rest (c :: cur)

/-- Model of f.read().splitlines(): split the file content on LF,
with no empty final line when the content ends in LF. -/
def splitlines (s : String) : List String :=
  splitlinesAux s.data []

/-- Model of f.writelines(hit + newline for hit in hits): each written
entry is terminated by LF, concatenated in order. -/
def writeLines : List String → String
  | [] => ""
  | h :: t => h ++ "\n" ++ writeLines t

/-- Model of input_ids = list(set(input_lines)) in map_refseqids_rest.
Python set iteration order is unspecified; List.dedup is one admissible
order, and every property proved about this definition is order-insensitive
(membership, absence of duplicates, cardinality). -/
def restQueryIds (content : String) : List String :=
  (splitlines content).dedup

/-- Model of the id batch of map_refseqids_bioservices: ids =
f.read().splitlines() followed by ids = ids[0:100000] when len(ids) > 100000.
No deduplication happens in this backend. -/
def bioSubmittedIds (content : String) : List String :=
  let ids := splitlines content
  if ids.length > 100000 then ids.take 100000 else ids

/-- Worker for uniqueList: left fold keeping the first occurrence of each
value, the documented behavior of pandas Series.unique (uniques are
returned in order of appearance). -/
def uniqueGo (acc : List String) : List String → List String
  | [] => acc
  | x :: rest =>
    if acc.contains x then uniqueGo acc rest else uniqueGo (acc ++ [x]) rest

/-- Model of pandas Series.unique applied to the extracted accession
column: duplicates dropped, order of first appearance kept. -/
def uniqueList (xs : List String) : List String :=
  uniqueGo [] xs

/-- Independent characterization of first-occurrence deduplication, written
from the words of the claim (keep each first occurrence, drop every later
occurrence of an already-seen value), to be compared with uniqueList. -/
def firstOccurrence : List String → List String
  | [] => []
  | x :: rest => x :: firstOccurrence (rest.filter (fun y => !(y == x)))
termination_by xs => xs.length
decreasing_by
  simp only [List.length_cons]
  exact Nat.lt_succ_of_le (List.length_filter_le _ _)

/-- A record row of a DataFrame: association list from column name to
value, as produced from a list of JSON records. -/
abbrev Row := List (String × String)

/-- Model of a pandas DataFrame: the column list plus the record rows.
pd.DataFrame() is the empty frame with no columns. -/
structure DataFrame where
  cols : List String
  rows : List Row
deriving DecidableEq

/-- Model of pd.DataFrame(): no columns, no rows. -/
def DataFrame.empty : DataFrame := ⟨[], []⟩

/-- Column list accumulated from records in order of first appearance of
each key, as pandas does when building a frame from a list of records. -/
def collectCols (rs : List Row) : List String :=
  rs.foldl (fun acc r => acc ++ (r.map Prod.fst).filter (fun k => !(acc.contains k))) []

/-- Model of pd.DataFrame(records): columns are the record keys in order
of first appearance; the rows are the records themselves. -/
def DataFrame.ofRecords (rs : List Row) : DataFrame :=
  ⟨collectCols rs, rs⟩

/-- Model of pd.concat([d1, d2], axis=0): rows appended, columns unioned
in order. -/
def DataFrame.concat (d1 d2 : DataFrame) : DataFrame :=
  ⟨d1.cols ++ d2.cols.filter (fun k => !(d1.cols.contains k)), d1.rows ++ d2.rows⟩

/-- Model of df[c] followed by extraction of the values: KeyError (none)
when c is not a column of df, otherwise the value of c in each row. -/
def DataFrame.getColumn (d : DataFrame) (c : String) : Option (List String) :=
  if d.cols.contains c then
    some (d.rows.map (fun r => (r.lookup c).getD ""))
  else none

/-- One step of the shared merge loop of both backends: an empty result
frame is skipped, the first database index replaces the collector frame,
any later index is concatenated onto it. -/
def mergeStep (i : Nat) (dummy df : DataFrame) : DataFrame :=
  if df.rows.length = 0 then dummy
  else if i = 0 then df
  else DataFrame.concat dummy df

/-- Worker of the merge loop, carrying the enumerate index and the
collector frame. -/
def mergeGo : Nat → DataFrame → List DataFrame → DataFrame
  | _, dummy, [] => dummy
  | i, dummy, df :: rest => mergeGo (i + 1) (mergeStep i dummy df) rest

/-- The merge loop of both backends, started from pd.DataFrame() at
enumerate index 0. -/
def mergeLoop (dfs : List DataFrame) : DataFrame :=
  mergeGo 0 DataFrame.empty dfs

/-- JSON record shape of one mapping pair in the rest backend stream
payload: a flat record with keys "from" and "to". -/
def restRecord (p : String × String) : Row :=
  [("from", p.1), ("to", p.2)]

/-- JSON record shape of one mapping pair after pd.json_normalize in the
bioservices backend: the nested accession is flattened to the key
"to.primaryAccession". -/
def bioRecord (p : String × String) : Row :=
  [("from", p.1), ("to.primaryAccession", p.2)]

/-- The UNIPROT_IDMAPPING_API constant of the source module. -/
def UNIPROT_IDMAPPING_API : String := "https://rest.uniprot.org/idmapping"

/-- The REQUESTS_TRIES constant of the source module: initial value of the
poll counter. -/
def REQUESTS_TRIES : Nat := 0

/-- The REQUESTS_LIMIT constant of the source module: bound of the poll
loop guard. -/
def REQUESTS_LIMIT : Nat := 10

/-- The User-Agent value of the REQUESTS_HEADER constant. -/
def uaString : String :=
  "ProteinCartography/0.4 (Arcadia Science) python-requests/2.0.1"

/-- The REQUESTS_HEADER constant of the source module. -/
def REQUESTS_HEADER : List (String × String) := [("User-Agent", uaString)]

/-- The three endpoints hit by map_refseqids_rest. -/
inductive RequestKind where
  | run
  | status
  | stream
deriving DecidableEq

/-- One HTTP request issued by map_refseqids_rest: which endpoint, the full
URL, the headers keyword argument passed to the requests library (empty
when the call site passes none), and the form payload for POST. -/
structure Request where
  kind : RequestKind
  url : String
  headers : List (String × String)
  payload : List (String × String)
deriving DecidableEq

/-- The POST run request: carries REQUESTS_HEADER and the form fields
ids, from, to. -/
def mkRunRequest (db input_string : String) : Request :=
  ⟨RequestKind.run, UNIPROT_IDMAPPING_API ++ "/run", REQUESTS_HEADER,
    [("ids", input_string), ("from", db), ("to", "UniProtKB")]⟩

/-- A GET status request for a job: carries REQUESTS_HEADER. -/
def mkStatusRequest (jobId : String) : Request :=
  ⟨RequestKind.status, UNIPROT_IDMAPPING_API ++ "/status/" ++ jobId,
    REQUESTS_HEADER, []⟩

/-- The GET stream request for a job: the source passes no headers keyword
to this call, so the headers component is empty. -/
def mkStreamRequest (jobId : String) : Request :=
  ⟨RequestKind.stream, UNIPROT_IDMAPPING_API ++ "/stream/" ++ jobId, [], []⟩

/-- The two abnormal outcomes of a run of map_refseqids_rest: the sys.exit
on the poll-exit check, and the pandas KeyError raised when the accession
column is selected from a frame that lacks it. -/
inductive RunError where
  | timedOut
  | keyError
deriving DecidableEq

/-- The external mapping service as seen by map_refseqids_rest: the job id
assigned by POST run for a database and payload, whether the k-th GET
status response for a job contains a "results" key, and the decoded pairs
of the GET stream response for a job. -/
structure RestEnv where
  jobId : String → String → String
  ready : String → Nat → Bool
  stream : String → List (String × String)

/-- Worker of the poll loop of map_refseqids_rest.  The Python loop is
  while repeat and tries < limit: poll; tries += 1; repeat = not ready
and this worker carries fuel = limit - tries so that the guard
tries < limit is exactly fuel > 0; the value returned is the final value
of tries, which equals the number of GET status requests issued.  The
readiness argument receives the current tries value, so poll number k
(counting from zero) reads ready k. -/
def pollGo (ready : Nat → Bool) : Nat → Nat → Bool → Nat
  | 0, tries, _ => tries
  | fuel + 1, tries, rep =>
    if rep then pollGo ready fuel (tries + 1) (!(ready tries)) else tries

/-- Final value of tries after the poll loop, starting from
tries = REQUESTS_TRIES = 0 and repeat = True. -/
def pollCount (ready : Nat → Bool) (limit : Nat) : Nat :=
  pollGo ready limit REQUESTS_TRIES true

/-- The per-database loop of map_refseqids_rest: for each database, POST
run, poll GET status until ready or the guard bound, then the hard-coded
  if tries == 10: sys.exit(...)
check, then GET stream (with no headers argument) and the merge step.
Returns the accumulated request trace and either the collector frame or
the abnormal termination. -/
def restLoop (env : RestEnv) (limit : Nat) (input_string : String) :
    List String → Nat → DataFrame → List Request →
    List Request × Except RunError DataFrame
  | [], _, dummy, trace => (trace, Except.ok dummy)
  | db :: rest, i, dummy, trace =>
    let jid := env.jobId db input_string
    let t := pollCount (env.ready jid) limit
    let trace1 :=
      trace ++ [mkRunRequest db input_string] ++
        (List.range t).map (fun _ => mkStatusRequest jid)
    if t = 10 then (trace1, Except.error RunError.timedOut)
    else
      let df := DataFrame.ofRecords ((env.stream jid).map restRecord)
      restLoop env limit input_string rest (i + 1) (mergeStep i dummy df)
        (trace1 ++ [mkStreamRequest jid])

/-- Model of map_refseqids_rest: normalize the input lines through
list(set(...)), join them with commas, run the per-database loop, select
the "to" column of the collector frame (KeyError when absent) and
deduplicate it with Series.unique.  The first component is the trace of
HTTP requests issued; the second is the list of accessions written to the
output file, or the abnormal outcome. -/
def map_refseqids_rest (env : RestEnv) (limit : Nat) (content : String)
    (dbs : List String) : List Request × Except RunError (List String) :=
  match restLoop env limit (String.intercalate "," (restQueryIds content))
      dbs 0 DataFrame.empty [] with
  | (trace, Except.error e) => (trace, Except.error e)
  | (trace, Except.ok dummy) =>
    match dummy.getColumn "to" with
    | none => (trace, Except.error RunError.keyError)
    | some col => (trace, Except.ok (uniqueList col))

/-- Model of map_refseqids_bioservices: the service is abstracted as a
function from the database name and the submitted id batch (the comma
join being a transport detail) to the mapping pairs; the pairs are shaped
by pd.json_normalize into records keyed "from" and "to.primaryAccession",
merged by the same loop, and the "to.primaryAccession" column is selected
(KeyError when absent) and deduplicated.  This backend neither
deduplicates its input nor polls. -/
def map_refseqids_bioservices (svc : String → List String → List (String × String))
    (content : String) (dbs : List String) : Except RunError (List String) :=
  match (mergeLoop (dbs.map (fun db =>
      DataFrame.ofRecords ((svc db (bioSubmittedIds content)).map bioRecord)))).getColumn
      "to.primaryAccession" with
  | none => Except.error RunError.keyError
  | some col => Except.ok (uniqueList col)

/-- A RestEnv that behaves like the mapping service assumed by the backend
equivalence: job ids are the database names, every status response is
ready at once, and the stream for a job returns the semantic pairs of the
service for that database queried with the id set of the rest backend. -/
def restEnvOf (svc : String → List String → List (String × String))
    (content : String) : RestEnv :=
  ⟨fun db _ => db, fun _ _ => true, fun jid => svc jid (restQueryIds content)⟩

/-- The outcome of map_refseqids_rest against the semantic service svc,
with the default REQUESTS_LIMIT. -/
def restRunSem (svc : String → List String → List (String × String))
    (content : String) (dbs : List String) : Except RunError (List String) :=
  (map_refseqids_rest (restEnvOf svc content) REQUESTS_LIMIT content dbs).2

/-- Header check used for the amended header claim: the run POST and the
status GETs carry exactly REQUESTS_HEADER, the stream GET carries no
headers. -/
def checkHeaders (r : Request) : Bool :=
  match r.kind with
  | RequestKind.run => r.headers == REQUESTS_HEADER
  | RequestKind.status => r.headers == REQUESTS_HEADER
  | RequestKind.stream => r.headers == []

/-- A membership-respecting mapping service used as the concrete
counterexample service: it answers with the pair (A, A) when A is among
the submitted ids and with the pair (B, B) when B is, so its response is
a function of the submitted id set only. -/
def svcMem (_db : String) (ids : List String) : List (String × String) :=
  (if "A" ∈ ids then [("A", "A")] else []) ++
    (if "B" ∈ ids then [("B", "B")] else [])

/-- An input file of 100001 lines: 100000 lines reading A followed by one
line reading B. -/
def manyLines : List String := List.replicate 100000 "A" ++ ["B"]

/-- The file content whose lines are manyLines. -/
def overflowContent : String := writeLines manyLines

/-- Splitting the writer output recovers the written lines chunk by
chunk, as long as the chunk contains no LF. -/
theorem splitlinesAux_chunk (cs : List Char) (h : '\n' ∉ cs)
    (rest cur : List Char) :
    splitlinesAux (cs ++ '\n' :: rest) cur
      = String.mk (cur.reverse ++ cs) :: splitlinesAux rest [] := by
  induction cs generalizing cur with
  | nil => simp [splitlinesAux]
  | cons c cs ih =>
    have hc : ¬ c = '\n' := fun hh => h (by simp [hh])
    have h2 : '\n' ∉ cs := fun hm => h (List.mem_cons_of_mem _ hm)
    simp [splitlinesAux, hc, ih h2, List.append_assoc]

/-- Round trip of the output writer and the line splitter: re-reading a
written list of LF-free lines yields that list exactly. -/
theorem splitlines_writeLines (hits : List String)
    (h : ∀ s ∈ hits, '\n' ∉ s.data) :
    splitlines (writeLines hits) = hits := by
  induction hits with
  | nil => rfl
  | cons x t ih =>
    have hx : '\n' ∉ x.data := h x (List.mem_cons_self x t)
    have ht : ∀ s ∈ t, '\n' ∉ s.data := fun s hs => h s (List.mem_cons_of_mem x hs)
    have hnl : ("\n" : String).data = ['\n'] := rfl
    have hdata : (x ++ "\n" ++ writeLines t).data
        = x.data ++ '\n' :: (writeLines t).data := by
      simp [String.data_append, hnl]
    show splitlinesAux (x ++ "\n" ++ writeLines t).data [] = x :: t
    rw [hdata, splitlinesAux_chunk x.data hx]
    cases x with
    | mk d => simpa using ih ht

/-- No line of manyLines contains an LF. -/
theorem manyLines_no_newline : ∀ s ∈ manyLines, '\n' ∉ s.data := by
  intro s hs
  rcases List.mem_append.mp hs with h | h
  · rw [List.eq_of_mem_replicate h]; decide
  · rw [List.mem_singleton.mp h]; decide

/-- Reading overflowContent yields exactly its 100001 lines. -/
theorem splitlines_overflow : splitlines overflowContent = manyLines :=
  splitlines_writeLines _ manyLines_no_newline

/-- manyLines has 100001 lines. -/
theorem manyLines_length : manyLines.length = 100001 := by
  unfold manyLines
  rw [List.length_append, List.length_replicate]
  rfl

/-- Taking the first 100000 lines of manyLines drops the final B line. -/
theorem manyLines_take : manyLines.take 100000 = List.replicate 100000 "A" := by
  have h := List.take_left (List.replicate 100000 "A") ["B"]
  rw [List.length_replicate] at h
  unfold manyLines
  exact h

/-- The bioservices backend truncates the overflowing input to the first
100000 lines, dropping the B line. -/
theorem bio_overflow : bioSubmittedIds overflowContent = List.replicate 100000 "A" := by
  have h1 : bioSubmittedIds overflowContent
      = if manyLines.length > 100000 then manyLines.take 100000 else manyLines := by
    unfold bioSubmittedIds
    rw [splitlines_overflow]
  rw [h1, manyLines_length, if_pos (by norm_num)]
  exact manyLines_take

/-- Deduplicating n + 1 copies of A followed by B yields the two ids. -/
theorem dedup_replicate_append :
    ∀ n : Nat, (List.replicate (n + 1) "A" ++ ["B"]).dedup = ["A", "B"] := by
  intro n
  induction n with
  | zero => decide
  | succ n ih =>
    rw [List.replicate_succ, List.cons_append, List.dedup_cons_of_mem, ih]
    exact List.mem_append_left _ (List.mem_replicate.mpr ⟨Nat.succ_ne_zero n, rfl⟩)

/-- The rest backend query set of overflowContent is the two distinct ids:
the B line beyond the 100000 cap is kept. -/
theorem rest_overflow : restQueryIds overflowContent = ["A", "B"] := by
  unfold restQueryIds
  rw [splitlines_overflow]
  unfold manyLines
  rw [show (100000 : Nat) = 99999 + 1 from rfl]
  exact dedup_replicate_append 99999

/-- A merge step never loses or duplicates rows: the resulting row count
is the sum, provided the collector is empty whenever the index is 0 (the
invariant of the loop, whose collector starts as pd.DataFrame()). -/
theorem mergeStep_rows (i : Nat) (dummy df : DataFrame)
    (h : i = 0 → dummy.rows = []) :
    (mergeStep i dummy df).rows.length = dummy.rows.length + df.rows.length := by
  unfold mergeStep
  rcases Nat.eq_zero_or_pos df.rows.length with h0 | h0
  · rw [if_pos h0, h0]
    simp
  · rw [if_neg (Nat.pos_iff_ne_zero.mp h0)]
    cases i with
    | zero => rw [if_pos rfl, h rfl]; simp
    | succ j =>
      rw [if_neg (Nat.succ_ne_zero j)]
      simp [DataFrame.concat]

/-- Row-count additivity of the merge loop worker. -/
theorem mergeGo_rows :
    ∀ (dfs : List DataFrame) (i : Nat) (dummy : DataFrame),
      (i = 0 → dummy.rows = []) →
      (mergeGo i dummy dfs).rows.length
        = dummy.rows.length + (dfs.map (fun d => d.rows.length)).sum := by
  intro dfs
  induction dfs with
  | nil => intro i dummy _; simp [mergeGo]
  | cons df rest ih =>
    intro i dummy h
    show (mergeGo (i + 1) (mergeStep i dummy df) rest).rows.length = _
    rw [ih (i + 1) _ (fun hh => absurd hh (Nat.succ_ne_zero i)),
      mergeStep_rows i dummy df h]
    simp [Nat.add_assoc]

/-- Loop invariant for the column extraction: the collector frame is
either still the untouched empty frame (no non-empty result so far) or
holds exactly the rows of the pairs accumulated so far, with the
accession column present. -/
def GoodFrame (key : String) (rec : String × String → Row)
    (dummy : DataFrame) (acc : List (String × String)) : Prop :=
  (acc = [] ∧ dummy = DataFrame.empty) ∨
    (acc ≠ [] ∧ dummy.rows = acc.map rec ∧ dummy.cols.contains key = true)

/-- Any key of any record ends up among the collected columns. -/
theorem mem_collectCols_aux :
    ∀ (rs : List Row) (acc : List String) (k : String),
      (k ∈ acc ∨ ∃ r ∈ rs, k ∈ r.map Prod.fst) →
      k ∈ rs.foldl
        (fun acc r => acc ++ (r.map Prod.fst).filter (fun x => !(acc.contains x)))
        acc := by
  intro rs
  induction rs with
  | nil =>
    intro acc k h
    rcases h with h | ⟨r, hr, _⟩
    · exact h
    · cases hr
  | cons r rest ih =>
    intro acc k h
    apply ih
    rcases h with h | ⟨r', hr', hk⟩
    · exact Or.inl (List.mem_append_left _ h)
    · rcases List.mem_cons.mp hr' with hEq | hr'rest
      · subst hEq
        by_cases hka : k ∈ acc
        · exact Or.inl (List.mem_append_left _ hka)
        · refine Or.inl (List.mem_append_right _ ?_)
          exact List.mem_filter.mpr ⟨hk, by simp [hka]⟩
      · exact Or.inr ⟨r', hr'rest, hk⟩

/-- A key present in some record is a column of the built frame. -/
theorem mem_collectCols (rs : List Row) (r : Row) (hr : r ∈ rs) (k : String)
    (hk : k ∈ r.map Prod.fst) : k ∈ collectCols rs :=
  mem_collectCols_aux rs [] k (Or.inr ⟨r, hr, hk⟩)

/-- The merge loop worker preserves the collector invariant while
accumulating the pairs of each processed database. -/
theorem mergeGo_good (key : String) (rec : String × String → Row)
    (hkey : ∀ p, key ∈ (rec p).map Prod.fst) :
    ∀ (pls : List (List (String × String))) (i : Nat) (dummy : DataFrame)
      (acc : List (String × String)),
      (i = 0 → acc = []) →
      GoodFrame key rec dummy acc →
      GoodFrame key rec
        (mergeGo i dummy (pls.map (fun ps => DataFrame.ofRecords (ps.map rec))))
        (acc ++ pls.flatten) := by
  intro pls
  induction pls with
  | nil =>
    intro i dummy acc _ hgood
    simpa [mergeGo] using hgood
  | cons ps rest ih =>
    intro i dummy acc hi hgood
    show GoodFrame key rec
      (mergeGo (i + 1)
        (mergeStep i dummy (DataFrame.ofRecords (ps.map rec)))
        (rest.map (fun ps => DataFrame.ofRecords (ps.map rec)))) _
    have hjoin : acc ++ (ps :: rest).flatten = (acc ++ ps) ++ rest.flatten := by
      simp [List.append_assoc]
    rw [hjoin]
    apply ih (i + 1) _ (acc ++ ps) (fun hh => absurd hh (Nat.succ_ne_zero i))
    rcases ps with _ | ⟨q, qs⟩
    · simpa [mergeStep, DataFrame.ofRecords, collectCols] using hgood
    · have hlen : ¬ (DataFrame.ofRecords ((q :: qs).map rec)).rows.length = 0 := by
        simp [DataFrame.ofRecords]
      have hstep : mergeStep i dummy (DataFrame.ofRecords ((q :: qs).map rec))
          = if i = 0 then DataFrame.ofRecords ((q :: qs).map rec)
            else DataFrame.concat dummy (DataFrame.ofRecords ((q :: qs).map rec)) := by
        unfold mergeStep
        rw [if_neg hlen]
      have hcolmem : key ∈ collectCols ((q :: qs).map rec) :=
        mem_collectCols _ (rec q) (List.mem_map_of_mem rec (List.mem_cons_self q qs))
          key (hkey q)
      cases i with
      | zero =>
        have hacc : acc = [] := hi rfl
        subst hacc
        rw [hstep, if_pos rfl]
        refine Or.inr ⟨by simp, rfl, ?_⟩
        simpa [DataFrame.ofRecords] using hcolmem
      | succ j =>
        rw [hstep, if_neg (Nat.succ_ne_zero j)]
        rcases hgood with ⟨hacc, hdummy⟩ | ⟨hne, hrows, hcontains⟩
        · subst hacc hdummy
          refine Or.inr ⟨by simp, ?_, ?_⟩
          · simp [DataFrame.concat, DataFrame.empty, DataFrame.ofRecords]
          · have hallkeep :
                (collectCols ((q :: qs).map rec)).filter
                    (fun k => !((DataFrame.empty.cols).contains k))
                  = collectCols ((q :: qs).map rec) := by
              simp [DataFrame.empty]
            simp only [DataFrame.concat, DataFrame.empty, DataFrame.ofRecords]
            simpa [hallkeep] using (by simpa using hcolmem : _)
        · refine Or.inr ⟨?_, ?_, ?_⟩
          · intro hh
            exact hne (List.append_eq_nil.mp hh).1
          · simp [DataFrame.concat, hrows, DataFrame.ofRecords]
          · have hmem : key ∈ dummy.cols := by
              have := hcontains
              simpa using this
            simp [DataFrame.concat, List.mem_append_left _ hmem]

/-- The merge loop of records shaped by rec, followed by selection of the
accession column, yields exactly the accession of every accumulated pair
in order, or KeyError (none) when every database contributed zero rows. -/
theorem mergeLoop_getColumn (key : String) (rec : String × String → Row)
    (hkey : ∀ p, key ∈ (rec p).map Prod.fst)
    (hval : ∀ p, ((rec p).lookup key).getD "" = p.2)
    (pls : List (List (String × String))) :
    (mergeLoop (pls.map (fun ps => DataFrame.ofRecords (ps.map rec)))).getColumn key
      = if pls.flatten = [] then none else some (pls.flatten.map Prod.snd) := by
  have hgood := mergeGo_good key rec hkey pls 0 DataFrame.empty []
    (fun _ => rfl) (Or.inl ⟨rfl, rfl⟩)
  rcases hgood with ⟨hj, hdf⟩ | ⟨hj, hrows, hcontains⟩
  · have hflat : pls.flatten = [] := by simpa using hj
    rw [if_pos hflat]
    show (mergeGo 0 DataFrame.empty _).getColumn key = none
    rw [show mergeGo 0 DataFrame.empty
        (pls.map (fun ps => DataFrame.ofRecords (ps.map rec))) = DataFrame.empty
      from hdf]
    rfl
  · have hflat : pls.flatten ≠ [] := by simpa using hj
    rw [if_neg hflat]
    show (mergeGo 0 DataFrame.empty _).getColumn key = _
    unfold DataFrame.getColumn
    rw [if_pos hcontains, hrows]
    simp only [List.nil_append, List.map_map]
    congr 1
    apply List.map_congr_left
    intro p _
    exact hval p

/-- The flat shape of the rest backend stream records has key "to". -/
theorem restRecord_key : ∀ p : String × String, "to" ∈ (restRecord p).map Prod.fst := by
  intro p
  simp [restRecord]

/-- Looking up "to" in a rest stream record yields the accession. -/
theorem restRecord_val : ∀ p : String × String,
    ((restRecord p).lookup "to").getD "" = p.2 := by
  intro p
  simp [restRecord, List.lookup]

/-- The flattened shape of the bioservices records has key
"to.primaryAccession". -/
theorem bioRecord_key : ∀ p : String × String,
    "to.primaryAccession" ∈ (bioRecord p).map Prod.fst := by
  intro p
  simp [bioRecord]

/-- Looking up "to.primaryAccession" in a flattened bioservices record
yields the accession. -/
theorem bioRecord_val : ∀ p : String × String,
    ((bioRecord p).lookup "to.primaryAccession").getD "" = p.2 := by
  intro p
  simp [bioRecord, List.lookup]

/-- Characterization of the bioservices backend as a function of the
semantic pairs returned per database: KeyError when every database
returned zero pairs, otherwise the deduplicated accession column of all
pairs in configured order. -/
theorem bio_char (svc : String → List String → List (String × String))
    (content : String) (dbs : List String) :
    map_refseqids_bioservices svc content dbs
      = if (dbs.map (fun db => svc db (bioSubmittedIds content))).flatten = []
        then Except.error RunError.keyError
        else Except.ok (uniqueList
          ((dbs.map (fun db => svc db (bioSubmittedIds content))).flatten.map Prod.snd)) := by
  unfold map_refseqids_bioservices
  have hfold :
      dbs.map (fun db =>
        DataFrame.ofRecords ((svc db (bioSubmittedIds content)).map bioRecord))
      = (dbs.map (fun db => svc db (bioSubmittedIds content))).map
          (fun ps => DataFrame.ofRecords (ps.map bioRecord)) := by
    rw [List.map_map]
    rfl
  rw [hfold,
    mergeLoop_getColumn "to.primaryAccession" bioRecord bioRecord_key bioRecord_val]
  by_cases hflat : (dbs.map (fun db => svc db (bioSubmittedIds content))).flatten = []
  · rw [if_pos hflat, if_pos hflat]
  · rw [if_neg hflat, if_neg hflat]

/-- Against a service that is ready on the first status poll, the
per-database loop of the rest backend never times out and its collector
frame is exactly the one built by the merge loop worker. -/
theorem restLoop_sem (svc : String → List String → List (String × String))
    (content input_string : String) :
    ∀ (dbs : List String) (i : Nat) (dummy : DataFrame) (trace : List Request),
      (restLoop (restEnvOf svc content) REQUESTS_LIMIT input_string dbs i dummy trace).2
        = Except.ok (mergeGo i dummy (dbs.map (fun db =>
            DataFrame.ofRecords ((svc db (restQueryIds content)).map restRecord)))) := by
  intro dbs
  induction dbs with
  | nil => intro i dummy trace; rfl
  | cons db rest ih =>
    intro i dummy trace
    exact ih (i + 1) _ _

/-- Characterization of the rest backend against the semantic service:
identical in shape to the bioservices characterization, with the rest
query set and the flat record shape. -/
theorem rest_char (svc : String → List String → List (String × String))
    (content : String) (dbs : List String) :
    restRunSem svc content dbs
      = if (dbs.map (fun db => svc db (restQueryIds content))).flatten = []
        then Except.error RunError.keyError
        else Except.ok (uniqueList
          ((dbs.map (fun db => svc db (restQueryIds content))).flatten.map Prod.snd)) := by
  have hloop := restLoop_sem svc content
    (String.intercalate "," (restQueryIds content)) dbs 0 DataFrame.empty []
  unfold restRunSem map_refseqids_rest
  rcases hres : restLoop (restEnvOf svc content) REQUESTS_LIMIT
      (String.intercalate "," (restQueryIds content)) dbs 0 DataFrame.empty [] with
    ⟨tr, res⟩
  rw [hres] at hloop
  simp only at hloop
  subst hloop
  have hfold :
      dbs.map (fun db =>
        DataFrame.ofRecords ((svc db (restQueryIds content)).map restRecord))
      = (dbs.map (fun db => svc db (restQueryIds content))).map
          (fun ps => DataFrame.ofRecords (ps.map restRecord)) := by
    rw [List.map_map]
    rfl
  have hcol := mergeLoop_getColumn "to" restRecord restRecord_key restRecord_val
    (dbs.map (fun db => svc db (restQueryIds content)))
  rw [← hfold] at hcol
  unfold mergeLoop at hcol
  simp only [hcol]
  by_cases hflat : (dbs.map (fun db => svc db (restQueryIds content))).flatten = []
  · rw [if_pos hflat]
    simp [hflat]
  · rw [if_neg hflat]
    simp [hflat]

/-- Every request appended by the per-database loop satisfies the header
discipline checked by checkHeaders. -/
theorem restLoop_headers (env : RestEnv) (limit : Nat) (istr : String) :
    ∀ (dbs : List String) (i : Nat) (dummy : DataFrame) (trace : List Request),
      trace.all checkHeaders = true →
      (restLoop env limit istr dbs i dummy trace).1.all checkHeaders = true := by
  intro dbs
  induction dbs with
  | nil => intro i dummy trace h; exact h
  | cons db rest ih =>
    intro i dummy trace h
    have htrace1 :
        (trace ++ [mkRunRequest db istr] ++
          (List.range (pollCount (env.ready (env.jobId db istr)) limit)).map
            (fun _ => mkStatusRequest (env.jobId db istr))).all checkHeaders = true := by
      simp [List.all_append, h, checkHeaders, mkRunRequest, mkStatusRequest,
        List.all_map]
    simp only [restLoop]
    split
    · exact htrace1
    · apply ih
      rw [List.all_append, htrace1]
      rfl

/-- C9 (amended): not every request of map_refseqids_rest carries the
identifying user-agent header.  The run POST and every status GET carry
exactly REQUESTS_HEADER (which holds the identifying user-agent), but the
stream GET carries no headers at all. -/
theorem rest_requests_headers (env : RestEnv) (limit : Nat) (content : String)
    (dbs : List String) :
    ("User-Agent", uaString) ∈ REQUESTS_HEADER ∧
      (map_refseqids_rest env limit content dbs).1.all checkHeaders = true := by
  refine ⟨by decide, ?_⟩
  unfold map_refseqids_rest
  rcases hres : restLoop env limit (String.intercalate "," (restQueryIds content))
      dbs 0 DataFrame.empty [] with ⟨tr, res⟩
  have h := restLoop_headers env limit
    (String.intercalate "," (restQueryIds content)) dbs 0 DataFrame.empty [] rfl
  rw [hres] at h
  cases res with
  | error e => simpa using h
  | ok dummy =>
    cases hcol : dummy.getColumn "to" with
    | none => simpa [hcol] using h
    | some col => simpa [hcol] using h

/-- Membership respects appending a single element on the Bool side. -/
theorem contains_append_singleton (acc : List String) (x a : String) :
    (acc ++ [x]).contains a = (acc.contains a || (a == x)) := by
  induction acc with
  | nil =>
    rw [List.nil_append, List.contains_cons]
    by_cases h : a = x <;> simp [h]
  | cons b t ih =>
    rw [List.cons_append, List.contains_cons, ih, List.contains_cons,
      Bool.or_assoc]

/-- Fold worker of pandas unique: equals the accumulator followed by the
first occurrences of the not-yet-seen values. -/
theorem uniqueGo_spec :
    ∀ (xs acc : List String),
      uniqueGo acc xs
        = acc ++ firstOccurrence (xs.filter (fun y => !(acc.contains y))) := by
  intro xs
  induction xs with
  | nil => intro acc; simp [uniqueGo, firstOccurrence]
  | cons x rest ih =>
    intro acc
    rcases hx : acc.contains x with hq | hq
    · have hstep : uniqueGo acc (x :: rest) = uniqueGo (acc ++ [x]) rest := by
        simp only [uniqueGo]
        rw [if_neg (by rw [hx]; exact Bool.false_ne_true)]
      rw [hstep, ih (acc ++ [x])]
      have hfilter : (x :: rest).filter (fun y => !(acc.contains y))
          = x :: rest.filter (fun y => !(acc.contains y)) := by
        rw [List.filter_cons, if_pos (by rw [hx]; rfl)]
      rw [hfilter, firstOccurrence]
      have hff : (rest.filter (fun y => !(acc.contains y))).filter (fun y => !(y == x))
          = rest.filter (fun y => !((acc ++ [x]).contains y)) := by
        rw [List.filter_filter]
        apply List.filter_congr
        intro a _
        rw [contains_append_singleton]
        cases acc.contains a <;> cases a == x <;> rfl
      rw [hff, List.append_assoc, List.singleton_append]
    · have hstep : uniqueGo acc (x :: rest) = uniqueGo acc rest := by
        simp only [uniqueGo]
        rw [if_pos hx]
      rw [hstep, ih acc]
      have hfilter : (x :: rest).filter (fun y => !(acc.contains y))
          = rest.filter (fun y => !(acc.contains y)) := by
        rw [List.filter_cons, if_neg (by rw [hx]; exact Bool.false_ne_true)]
      rw [hfilter]

/-- A service environment for the poll-budget evaluation: job ids are the
database names, no status response ever contains a "results" key, and the
stream decodes to one pair. -/
def envC1 : RestEnv := ⟨fun db _ => db, fun _ _ => false, fun _ => [("A", "X")]⟩

/-- A service environment in which every status response is ready at once
and every stream decodes to zero pairs. -/
def envC3 : RestEnv := ⟨fun db _ => db, fun _ _ => true, fun _ => []⟩

/-- The service environment of the two-database scenario: the first
database maps the two queried ids, the second returns zero rows. -/
def envC7 : RestEnv :=
  ⟨fun db _ => db, fun _ _ => true,
    fun jid => if jid = "db1" then [("P12345", "A0A000"), ("Q9Y6K9", "A0A001")] else []⟩

/-- A minimal always-ready service environment with one mapping pair,
used to inspect the request trace. -/
def envC9 : RestEnv := ⟨fun db _ => db, fun _ _ => true, fun _ => [("A", "X")]⟩

/-- A constant mapping service, used to witness the backend equivalence. -/
def svcConst (_db : String) (_ids : List String) : List (String × String) :=
  [("P12345", "Q12345")]

/-- C1: evaluation of the poll scheduler at the failing input.  With an
attempt budget of 3 and a status endpoint that never signals readiness,
the loop performs exactly 3 polls, yet the run is NOT reported timed out
(the exit check compares the counter against the literal 10, not the
budget) and the stream endpoint IS fetched afterwards, contradicting the
claimed iff between TimedOut and budget exhaustion. -/
theorem poll_budget_three_not_timedout :
    pollCount (fun _ => false) 3 = 3 ∧
    (map_refseqids_rest envC1 3 "A\n" ["db1"]).2 = Except.ok ["X"] ∧
    mkStreamRequest "db1" ∈ (map_refseqids_rest envC1 3 "A\n" ["db1"]).1 :=
  ⟨rfl, rfl, by decide⟩

/-- C2 (counterexample): on the input file content with an interior empty
line, the query set of the rest backend keeps the empty string, and its
size is the number of distinct lines including the empty one, not the
number of distinct non-empty lines. -/
theorem queryset_empty_line_cex :
    "" ∈ restQueryIds "A\n\nB\n" ∧
    (restQueryIds "A\n\nB\n").length = 3 ∧
    ((splitlines "A\n\nB\n").filter (fun s => !(s == ""))).dedup.length = 2 :=
  ⟨by decide, by decide, by decide⟩

/-- C2 (amended): the query set contains no duplicates, equals the set of
input lines (empty lines included, since nothing drops them), and its
size is the number of distinct input lines. -/
theorem queryset_nodup_card (content : String) :
    (restQueryIds content).Nodup ∧
    (restQueryIds content).toFinset = (splitlines content).toFinset ∧
    (restQueryIds content).length = (splitlines content).toFinset.card := by
  refine ⟨List.nodup_dedup _, ?_, ?_⟩
  · ext a
    simp [restQueryIds, List.mem_dedup]
  · rw [List.card_toFinset]
    rfl

/-- C3: evaluation at the failing input.  When every configured source
database returns zero rows, both backends abort with the KeyError raised
by selecting the accession column from the empty collector frame, and no
output is written, contradicting the claim that the run must complete. -/
theorem all_empty_keyerror_eval :
    (map_refseqids_rest envC3 10 "P12345\n" ["db1", "db2"]).2
      = Except.error RunError.keyError ∧
    map_refseqids_bioservices (fun _ _ => []) "P12345\n" ["db1", "db2"]
      = Except.error RunError.keyError :=
  ⟨rfl, rfl⟩

/-- C4 (amended): the two backends are equivalent whenever the input file
has at most 100000 lines (so that the bioservices truncation is inert)
and the mapping service is a function of the submitted id set returning
the same pairs under both JSON shapes. -/
theorem backends_equiv_within_cap
    (svc : String → List String → List (String × String))
    (content : String) (dbs : List String)
    (hsvc : ∀ db xs ys, (∀ a, a ∈ xs ↔ a ∈ ys) → svc db xs = svc db ys)
    (hcap : (splitlines content).length ≤ 100000) :
    map_refseqids_bioservices svc content dbs = restRunSem svc content dbs := by
  rw [bio_char, rest_char]
  have hids : bioSubmittedIds content = splitlines content := by
    unfold bioSubmittedIds
    show (if (splitlines content).length > 100000
        then (splitlines content).take 100000
        else splitlines content) = splitlines content
    rw [if_neg (by omega)]
  have hf : (fun db => svc db (bioSubmittedIds content))
      = (fun db => svc db (restQueryIds content)) := by
    funext db
    apply hsvc
    intro a
    rw [hids]
    show a ∈ splitlines content ↔ a ∈ (splitlines content).dedup
    exact List.mem_dedup.symm
  rw [hf]

/-- Witness for the amended backend equivalence, at a one-line input and
a constant service. -/
theorem backends_equiv_within_cap_witness :
    (splitlines "P12345\n").length ≤ 100000 ∧
    map_refseqids_bioservices svcConst "P12345\n" ["db1"]
      = restRunSem svcConst "P12345\n" ["db1"] :=
  ⟨by decide, backends_equiv_within_cap svcConst "P12345\n" ["db1"]
    (fun _ _ _ _ => rfl) (by decide)⟩

/-- C4 (counterexample): on a 100001-line input, against the
membership-respecting service svcMem, the bioservices backend (which
truncates to the first 100000 lines and so never queries the id B) writes
only A, while the rest backend writes A and B: the output sets differ. -/
theorem backends_differ_beyond_cap_cex :
    map_refseqids_bioservices svcMem overflowContent ["db1"] = Except.ok ["A"] ∧
    restRunSem svcMem overflowContent ["db1"] = Except.ok ["A", "B"] ∧
    "B" ∈ (["A", "B"] : List String) ∧ "B" ∉ (["A"] : List String) := by
  have hbio : svcMem "db1" (bioSubmittedIds overflowContent) = [("A", "A")] := by
    rw [bio_overflow]
    unfold svcMem
    rw [if_pos (List.mem_replicate.mpr ⟨by norm_num, rfl⟩),
      if_neg (fun hm => absurd (List.eq_of_mem_replicate hm) (by decide))]
    rfl
  have hrest : svcMem "db1" (restQueryIds overflowContent)
      = [("A", "A"), ("B", "B")] := by
    rw [rest_overflow]
    decide
  refine ⟨?_, ?_, by decide, by decide⟩
  · rw [bio_char]
    have hflat : (["db1"].map
        (fun db => svcMem db (bioSubmittedIds overflowContent))).flatten
        = [("A", "A")] := by
      simp [hbio]
    rw [hflat]
    rfl
  · rw [rest_char]
    have hflat : (["db1"].map
        (fun db => svcMem db (restQueryIds overflowContent))).flatten
        = [("A", "A"), ("B", "B")] := by
      simp [hrest]
    rw [hflat]
    rfl

/-- C5 (counterexample): on a 100001-line input, the id B that only
occurs on the line beyond the first 100000 is still submitted by the rest
backend, which therefore does not truncate; the bioservices backend does
drop it. -/
theorem rest_beyond_cap_not_truncated_cex :
    (splitlines overflowContent).length = 100001 ∧
    "B" ∉ (splitlines overflowContent).take 100000 ∧
    "B" ∈ restQueryIds overflowContent ∧
    "B" ∉ bioSubmittedIds overflowContent := by
  refine ⟨?_, ?_, ?_, ?_⟩
  · rw [splitlines_overflow]
    exact manyLines_length
  · rw [splitlines_overflow, manyLines_take]
    intro hm
    exact absurd (List.eq_of_mem_replicate hm) (by decide)
  · rw [rest_overflow]
    decide
  · rw [bio_overflow]
    intro hm
    exact absurd (List.eq_of_mem_replicate hm) (by decide)

/-- C5 (amended): only the bioservices backend caps the batch, keeping
exactly the first 100000 raw input lines; the rest backend submits the
full set of distinct input lines with no cap. -/
theorem truncation_only_in_bioservices (content : String) :
    bioSubmittedIds content = (splitlines content).take 100000 ∧
    (bioSubmittedIds content).length ≤ 100000 ∧
    (restQueryIds content).toFinset = (splitlines content).toFinset := by
  have h1 : bioSubmittedIds content = (splitlines content).take 100000 := by
    unfold bioSubmittedIds
    show (if (splitlines content).length > 100000
        then (splitlines content).take 100000
        else splitlines content) = (splitlines content).take 100000
    by_cases h : (splitlines content).length > 100000
    · rw [if_pos h]
    · rw [if_neg h, List.take_of_length_le (by omega)]
  refine ⟨h1, ?_, ?_⟩
  · rw [h1, List.length_take]
    exact Nat.min_le_left _ _
  · ext a
    simp [restQueryIds, List.mem_dedup]

/-- C6: the merge loop neither drops nor duplicates rows: for every
ordered list of mapping results, the aggregate frame has exactly the sum
of the per-result row counts, whichever results are empty and wherever
they sit. -/
theorem mergeLoop_row_count (results : List (List (String × String))) :
    (mergeLoop (results.map
      (fun ps => DataFrame.ofRecords (ps.map restRecord)))).rows.length
      = (results.map List.length).sum := by
  unfold mergeLoop
  rw [mergeGo_rows _ 0 DataFrame.empty (fun _ => rfl), List.map_map]
  have hlen : ∀ ps ∈ results,
      ((fun d => d.rows.length) ∘ fun ps => DataFrame.ofRecords (ps.map restRecord)) ps
        = ps.length := by
    intro ps _
    simp [DataFrame.ofRecords]
  rw [List.map_congr_left hlen]
  simp [DataFrame.empty]

/-- C7: the concrete two-database scenario: duplicate input ids P12345,
P12345, Q9Y6K9, first database mapping the two distinct ids, second
returning zero rows; the output file holds exactly the two accessions,
each once. -/
theorem scenario_two_dbs_eval :
    (map_refseqids_rest envC7 10 "P12345\nP12345\nQ9Y6K9\n" ["db1", "db2"]).2
      = Except.ok ["A0A000", "A0A001"] ∧
    writeLines ["A0A000", "A0A001"] = "A0A000\nA0A001\n" ∧
    (["A0A000", "A0A001"] : List String).Nodup :=
  ⟨rfl, rfl, by decide⟩

/-- C8 (amended): writing an OutputSet of non-empty accession strings
containing no line terminator and re-reading the destination file by
splitting on line terminators yields exactly the in-memory OutputSet. -/
theorem output_roundtrip (hits : List String)
    (h : ∀ s ∈ hits, s ≠ "" ∧ '\n' ∉ s.data) :
    splitlines (writeLines hits) = hits :=
  splitlines_writeLines hits (fun s hs => (h s hs).2)

/-- Witness for the output round trip at a two-accession set. -/
theorem output_roundtrip_witness :
    (∀ s ∈ (["A0A000", "A0A001"] : List String), s ≠ "" ∧ '\n' ∉ s.data) ∧
    splitlines (writeLines ["A0A000", "A0A001"]) = ["A0A000", "A0A001"] :=
  ⟨by decide, output_roundtrip ["A0A000", "A0A001"] (by decide)⟩

/-- C8 (counterexample): a non-empty accession containing a line
terminator does not round trip: the written file re-reads as two lines
and the original accession is not among them. -/
theorem roundtrip_newline_cex :
    ("A\nB" : String) ≠ "" ∧ (["A\nB"] : List String).Nodup ∧
    splitlines (writeLines ["A\nB"]) = ["A", "B"] ∧
    "A\nB" ∉ splitlines (writeLines ["A\nB"]) :=
  ⟨by decide, by decide, rfl, by decide⟩

/-- C9 (counterexample): in a one-database run the trace is the run POST,
one status GET and the stream GET; the stream GET carries no headers, so
not every request carries the identifying user-agent header. -/
theorem stream_request_no_header_cex :
    (map_refseqids_rest envC9 10 "A\n" ["db1"]).1
      = [mkRunRequest "db1" "A", mkStatusRequest "db1", mkStreamRequest "db1"] ∧
    ("User-Agent", uaString) ∈ (mkRunRequest "db1" "A").headers ∧
    ("User-Agent", uaString) ∈ (mkStatusRequest "db1").headers ∧
    (mkStreamRequest "db1").headers = [] ∧
    ((map_refseqids_rest envC9 10 "A\n" ["db1"]).1.all
      (fun r => r.headers.contains ("User-Agent", uaString))) = false :=
  ⟨rfl, by decide, by decide, rfl, by decide⟩

/-- C10: the deduplication applied by the output writer keeps exactly the
first occurrence of each accession of the aggregate accession column, in
order of first appearance, so the written order is a deterministic
function of the aggregate row order. -/
theorem uniqueList_firstOccurrence (xs : List String) :
    uniqueList xs = firstOccurrence xs := by
  rw [uniqueList, uniqueGo_spec xs []]
  have hfilter : xs.filter (fun y => !(([] : List String).contains y)) = xs := by
    apply List.filter_eq_self.mpr
    intro a _
    rfl
  rw [hfilter, List.nil_append]
